import Mathlib

/-!
Verification of the `zone-nameservers` DNS delegation walker (`main.go`).

The program walks the DNS delegation chain from the root zone down to a
target domain.  We embed the pure content of the three functions
`localQuery`, `getNsRecords` and the zone-assembly loop of `main`, replacing
the network exchange by an explicit parameter (the outcome the UDP exchange
would have produced) and the process-wide random source by an explicit
natural number.
-/

namespace ZoneNS

/-- A DNS resource record, as far as this program inspects it: either an
NS record carrying its target hostname (`t.Ns` in the source), or any
other record type (which the type switch `ans.(*dns.NS)` skips). -/
inductive RR where
  | ns (target : String) : RR
  | other : RR
deriving DecidableEq, Repr

/-- The part of a `dns.Msg` response that `localQuery`/`getNsRecords`
inspect: the response code, the answer section (`r.Answer`) and the
authority section (`r.Ns`). -/
structure Msg where
  rcode : Nat
  answer : List RR
  authority : List RR
deriving DecidableEq, Repr

deriving instance DecidableEq for Except

/-- `dns.RcodeSuccess`. -/
def RcodeSuccess : Nat := 0

/-- `dns.RcodeNameError` (NXDOMAIN). -/
def RcodeNameError : Nat := 3

/-- The outcome of the UDP exchange `localc.Exchange`: either a transport
error, or a (possibly nil) parsed response. -/
abbrev ExchangeResult : Type := Except String (Option Msg)

/-- `localQuery` (main.go:35-47), with the network exchange passed in as
`exch`.  A transport error is returned unchanged; a nil response or a
response whose Rcode is NameError or Success is returned with nil error;
any other Rcode yields the protocol error. -/
def localQuery (exch : ExchangeResult) : Except String (Option Msg) :=
  match exch with
  | .error e => .error e
  | .ok r =>
    match r with
    | none => .ok none
    | some m =>
      if m.rcode = RcodeNameError ∨ m.rcode = RcodeSuccess then .ok (some m)
      else .error "No name server to answer the question"

/-- The NS-target extraction loop of `getNsRecords` (main.go:60-65 and
70-75): collect `t.Ns` for each record in the section that is an `*dns.NS`. -/
def extractNS (rrs : List RR) : List String :=
  rrs.filterMap fun rr =>
    match rr with
    | .ns t => some t
    | .other => none

/-- Lexicographic comparison of character sequences.  Go's `sort.Strings`
compares UTF-8 byte sequences; since UTF-8 preserves codepoint order,
byte-wise and codepoint-wise lexicographic order coincide. -/
def lexLeChars : List Char → List Char → Bool
  | [], _ => true
  | _ :: _, [] => false
  | x :: xs, y :: ys => if x = y then lexLeChars xs ys else decide (x < y)

/-- The lexicographic string order used by `sort.Strings`. -/
def lexLe (a b : String) : Prop := lexLeChars a.data b.data = true

instance : DecidableRel lexLe := fun a b =>
  inferInstanceAs (Decidable (lexLeChars a.data b.data = true))

/-- `sort.Strings` (main.go:85): sort a string slice in ascending
lexicographic order.  Since `lexLe` is a total order, the sorted
permutation of a list is unique, so any sorting algorithm denotes the same
function; we use insertion sort, which is structurally recursive. -/
def sortStrings (l : List String) : List String :=
  l.insertionSort lexLe

/-- `dns.IsFqdn` for unescaped names: the name ends in a dot.  (The library
additionally treats an escaped final dot as non-FQDN; no such name occurs
in this development.) -/
def isFqdn (s : String) : Bool := s.data.getLast? = some '.'

/-- `dns.Fqdn`: append the final dot unless already present. -/
def fqdn (s : String) : String := if isFqdn s then s else s ++ "."

/-- The value held by the `nameservers` variable after the two extraction
loops of `getNsRecords` (main.go:57-76): the NS targets of the answer
section, or, when the answer section yields none, those of the authority
section. -/
def nsCandidates (ans auth : List RR) : List String :=
  let fromAnswer := extractNS ans
  if fromAnswer = [] then extractNS auth else fromAnswer

/-- `getNsRecords` (main.go:49-88), with the exchange outcome `exch` and
the value of the random source `rand` passed explicitly; `rand.Intn n` is
modelled as `rand % n`.  Go's `(nil, "", nil)` return for a nil response is
`.ok ([], "")`; the two error returns are `.error`.  Note that
`sort.Strings` runs after the random pick, and the sorted slice is what is
returned. -/
def getNsRecords (zone : String) (exch : ExchangeResult) (rand : Nat) :
    Except String (List String × String) :=
  let zone := fqdn zone
  match localQuery exch with
  | .error e => .error e
  | .ok none => .ok ([], "")
  | .ok (some r) =>
    let nameservers := nsCandidates r.answer r.authority
    if nameservers = [] then
      .error ("No nameservers found for " ++ zone)
    else
      let randomNs := nameservers.getD (rand % nameservers.length) ""
      .ok (sortStrings nameservers, randomNs)

/-- Split a character sequence at every dot, keeping empty labels, exactly
as `strings`-style splitting does inside `dns.SplitDomainName`. -/
def splitAux : List Char → List Char → List (List Char)
  | [], acc => [acc.reverse]
  | c :: cs, acc =>
    if c = '.' then acc.reverse :: splitAux cs [] else splitAux cs (c :: acc)

/-- `dns.SplitDomainName` for unescaped names: the empty string and the
root `"."` give no labels; otherwise a trailing dot is dropped and the rest
is split at every dot. -/
def splitDomainName (s : String) : List String :=
  if s.data = [] then []
  else
    let cs := if s.data.getLast? = some '.' then s.data.dropLast else s.data
    if cs = [] then []
    else (splitAux cs []).map String.mk

/-- One step of zone-name assembly (main.go:144-148): prepend the next
label to the accumulated zone name. -/
def assembleZone (element acc : String) : String :=
  if acc = "." then element ++ "." else element ++ "." ++ acc

/-- The reverse loop of `main` (main.go:138-165), with the pieces already
put in consumption order (the loop pops `domainPieces[len-1]` each turn,
i.e. iterates the split form from the right).  Returns the successive
values of `assembledDomain`, each of which is passed to `getNsRecords`. -/
def walkZones : List String → String → List String
  | [], _ => []
  | element :: rest, acc =>
    let z := assembleZone element acc
    z :: walkZones rest z

/-- The full sequence of zone names `main` queries via `getNsRecords`: the
root `"."` (main.go:117), then one zone per label of the target domain,
consumed from the most general label onwards. -/
def zoneSequence (domain : String) : List String :=
  "." :: walkZones (splitDomainName domain).reverse "."

/-! ### Helper lemmas -/

theorem lexLeChars_total : ∀ xs ys : List Char,
    lexLeChars xs ys = true ∨ lexLeChars ys xs = true
  | [], _ => Or.inl rfl
  | _ :: _, [] => Or.inr rfl
  | x :: xs, y :: ys => by
    by_cases h : x = y
    · subst h
      simpa only [lexLeChars, if_pos rfl] using lexLeChars_total xs ys
    · rcases lt_or_gt_of_ne h with hlt | hgt
      · exact Or.inl (by simp [lexLeChars, h, hlt])
      · exact Or.inr (by simp [lexLeChars, Ne.symm h, hgt])

theorem lexLeChars_trans : ∀ xs ys zs : List Char,
    lexLeChars xs ys = true → lexLeChars ys zs = true → lexLeChars xs zs = true
  | [], _, _, _, _ => rfl
  | _ :: _, [], _, h1, _ => by simp [lexLeChars] at h1
  | _ :: _, _ :: _, [], _, h2 => by simp [lexLeChars] at h2
  | x :: xs, y :: ys, z :: zs, h1, h2 => by
    by_cases hxy : x = y <;> by_cases hyz : y = z
    · subst hxy; subst hyz
      simp only [lexLeChars, if_pos rfl] at h1 h2 ⊢
      exact lexLeChars_trans xs ys zs h1 h2
    · subst hxy
      simp only [lexLeChars, if_pos rfl, if_neg hyz, decide_eq_true_eq] at h1 h2 ⊢
      simp [ne_of_lt h2, h2]
    · subst hyz
      simp only [lexLeChars, if_neg hxy, decide_eq_true_eq] at h1 ⊢
      simp [hxy, h1]
    · simp only [lexLeChars, if_neg hxy, if_neg hyz, decide_eq_true_eq] at h1 h2 ⊢
      have hxz : x < z := lt_trans h1 h2
      simp [ne_of_lt hxz, hxz]

instance : IsTotal String lexLe :=
  ⟨fun a b => lexLeChars_total a.data b.data⟩

instance : IsTrans String lexLe :=
  ⟨fun a b c => lexLeChars_trans a.data b.data c.data⟩

theorem sortStrings_perm (l : List String) : (sortStrings l).Perm l :=
  List.perm_insertionSort lexLe l

theorem sortStrings_sorted (l : List String) : (sortStrings l).Sorted lexLe :=
  List.sorted_insertionSort lexLe l

theorem mem_sortStrings {a : String} {l : List String} :
    a ∈ sortStrings l ↔ a ∈ l :=
  (sortStrings_perm l).mem_iff

theorem getD_mod_mem {l : List String} (hne : l ≠ []) (rand : Nat) :
    l.getD (rand % l.length) "" ∈ l := by
  have hlen : 0 < l.length := List.length_pos.mpr hne
  have hlt : rand % l.length < l.length := Nat.mod_lt _ hlen
  rw [List.getD_eq_getElem l "" hlt]
  exact List.getElem_mem hlt

theorem localQuery_good (m : Msg)
    (h : m.rcode = RcodeNameError ∨ m.rcode = RcodeSuccess) :
    localQuery (.ok (some m)) = .ok (some m) :=
  if_pos h

theorem localQuery_bad (m : Msg)
    (h : ¬(m.rcode = RcodeNameError ∨ m.rcode = RcodeSuccess)) :
    localQuery (.ok (some m)) = .error "No name server to answer the question" :=
  if_neg h

/-- Evaluation of `getNsRecords` on the successful path: accepted Rcode and
a non-empty candidate set. -/
theorem getNsRecords_eval_ok (zone : String) (rc : Nat) (ans auth : List RR)
    (rand : Nat) (hrc : rc = RcodeNameError ∨ rc = RcodeSuccess)
    (hne : nsCandidates ans auth ≠ []) :
    getNsRecords zone (.ok (some ⟨rc, ans, auth⟩)) rand
      = .ok (sortStrings (nsCandidates ans auth),
             (nsCandidates ans auth).getD
               (rand % (nsCandidates ans auth).length) "") := by
  simp only [getNsRecords, localQuery_good ⟨rc, ans, auth⟩ hrc]
  rw [if_neg hne]

/-- Evaluation of `getNsRecords` when the candidate set is empty. -/
theorem getNsRecords_eval_empty (zone : String) (rc : Nat) (ans auth : List RR)
    (rand : Nat) (hrc : rc = RcodeNameError ∨ rc = RcodeSuccess)
    (hcand : nsCandidates ans auth = []) :
    getNsRecords zone (.ok (some ⟨rc, ans, auth⟩)) rand
      = .error ("No nameservers found for " ++ fqdn zone) := by
  simp only [getNsRecords, localQuery_good ⟨rc, ans, auth⟩ hrc]
  rw [if_pos hcand]

/-- Evaluation of `getNsRecords` on a rejected Rcode. -/
theorem getNsRecords_eval_bad (zone : String) (rc : Nat) (ans auth : List RR)
    (rand : Nat) (hrc : ¬(rc = RcodeNameError ∨ rc = RcodeSuccess)) :
    getNsRecords zone (.ok (some ⟨rc, ans, auth⟩)) rand
      = .error "No name server to answer the question" := by
  simp only [getNsRecords, localQuery_bad ⟨rc, ans, auth⟩ hrc]

theorem walkZones_length : ∀ (pieces : List String) (acc : String),
    (walkZones pieces acc).length = pieces.length
  | [], _ => rfl
  | _ :: rest, acc => by
    simp only [walkZones, List.length_cons]
    rw [walkZones_length rest]

theorem splitDomainName_concat_dot (s : String) (h : isFqdn s = false) :
    splitDomainName (s ++ ".") = splitDomainName s := by
  have hne : ¬(s.data.getLast? = some '.') := by
    simpa [isFqdn] using h
  have hdata : (s ++ ".").data = s.data ++ ['.'] := by
    simp [String.data_append]
  by_cases hs : s.data = []
  · simp [splitDomainName, hdata, hs, List.getLast?_concat]
  · simp [splitDomainName, hdata, hs, List.getLast?_concat, List.dropLast_concat, hne]

/-! ### Claims -/

/-- C1: for a target domain with n labels, the walker performs exactly n+1
nameserver-discovery query steps — one `getNsRecords` call for the root
zone followed by one per label. -/
theorem walker_query_count (d : String) (n : Nat)
    (h : (splitDomainName d).length = n) :
    (zoneSequence d).length = n + 1 := by
  simp [zoneSequence, walkZones_length, h]

theorem walker_query_count_witness :
    (zoneSequence "www.example.com").length = 3 + 1 :=
  walker_query_count "www.example.com" 3 rfl

/-- C2: when the answer section contains at least one NS record, the
result of `getNsRecords` is built exclusively from the answer-section NS
targets — it is unchanged under any substitution of the authority section,
and on an accepted Rcode it equals the sorted answer-section extraction
with the random pick made among exactly those targets. -/
theorem getNsRecords_answer_only (zone : String) (rc : Nat)
    (ans auth auth' : List RR) (rand : Nat)
    (h : extractNS ans ≠ []) :
    getNsRecords zone (.ok (some ⟨rc, ans, auth⟩)) rand
      = getNsRecords zone (.ok (some ⟨rc, ans, auth'⟩)) rand ∧
    ((rc = RcodeNameError ∨ rc = RcodeSuccess) →
      getNsRecords zone (.ok (some ⟨rc, ans, auth⟩)) rand
        = .ok (sortStrings (extractNS ans),
               (extractNS ans).getD (rand % (extractNS ans).length) "")) := by
  have hcand : ∀ a : List RR, nsCandidates ans a = extractNS ans := by
    intro a
    simp [nsCandidates, h]
  constructor
  · by_cases hrc : rc = RcodeNameError ∨ rc = RcodeSuccess
    · rw [getNsRecords_eval_ok zone rc ans auth rand hrc (by rw [hcand]; exact h),
          getNsRecords_eval_ok zone rc ans auth' rand hrc (by rw [hcand]; exact h),
          hcand, hcand]
    · rw [getNsRecords_eval_bad zone rc ans auth rand hrc,
          getNsRecords_eval_bad zone rc ans auth' rand hrc]
  · intro hrc
    rw [getNsRecords_eval_ok zone rc ans auth rand hrc (by rw [hcand]; exact h), hcand]

theorem getNsRecords_answer_only_witness :
    (getNsRecords "example.com"
        (.ok (some ⟨0, [.ns "b.", .ns "a."], [.ns "x."]⟩)) 0
      = getNsRecords "example.com"
          (.ok (some ⟨0, [.ns "b.", .ns "a."], []⟩)) 0) ∧
    ((0 = RcodeNameError ∨ 0 = RcodeSuccess) →
      getNsRecords "example.com"
          (.ok (some ⟨0, [.ns "b.", .ns "a."], [.ns "x."]⟩)) 0
        = .ok (sortStrings (extractNS [.ns "b.", .ns "a."]),
               (extractNS [.ns "b.", .ns "a."]).getD
                 (0 % (extractNS [.ns "b.", .ns "a."]).length) "")) :=
  getNsRecords_answer_only "example.com" 0 [.ns "b.", .ns "a."] [.ns "x."] [] 0
    (by decide)

/-- C3: when the answer section contains no NS record and the authority
section contains some, `getNsRecords` succeeds and the returned list is a
permutation of (hence has the same members as) the authority-section NS
targets. -/
theorem getNsRecords_authority_fallback (zone : String) (rc : Nat)
    (ans auth : List RR) (rand : Nat)
    (hrc : rc = RcodeNameError ∨ rc = RcodeSuccess)
    (hans : extractNS ans = []) (hauth : extractNS auth ≠ []) :
    ∃ l sel,
      getNsRecords zone (.ok (some ⟨rc, ans, auth⟩)) rand = .ok (l, sel) ∧
      l.Perm (extractNS auth) ∧ ∀ x, x ∈ l ↔ x ∈ extractNS auth := by
  have hcand : nsCandidates ans auth = extractNS auth := by
    simp [nsCandidates, hans]
  have heval := getNsRecords_eval_ok zone rc ans auth rand hrc
    (by rw [hcand]; exact hauth)
  rw [hcand] at heval
  exact ⟨_, _, heval, sortStrings_perm _, fun x => mem_sortStrings⟩

theorem getNsRecords_authority_fallback_witness :
    ∃ l sel,
      getNsRecords "example.com"
          (.ok (some ⟨0, [RR.other], [.ns "b.", .ns "a."]⟩)) 0 = .ok (l, sel) ∧
      l.Perm (extractNS [.ns "b.", .ns "a."]) ∧
      ∀ x, x ∈ l ↔ x ∈ extractNS [.ns "b.", .ns "a."] :=
  getNsRecords_authority_fallback "example.com" 0 [RR.other] [.ns "b.", .ns "a."] 0
    (Or.inr rfl) rfl (by decide)

/-- C4 counterexample: a non-nil response with an unaccepted Rcode (here
SERVFAIL = 2) and zero NS records in both sections does not produce the
delegation error naming the zone — it produces the protocol error
instead. -/
theorem getNsRecords_badRcode_cex :
    getNsRecords "example.com" (.ok (some ⟨2, [], []⟩)) 0
      = .error "No name server to answer the question" ∧
    getNsRecords "example.com" (.ok (some ⟨2, [], []⟩)) 0
      ≠ .error "No nameservers found for example.com." :=
  ⟨rfl, by decide⟩

/-- C4 (amended): for every non-nil response whose status is success or
name-error and whose answer and authority sections both contain zero
NS-type records, `getNsRecords` returns the error
`"No nameservers found for Z"` naming the queried zone, with no nameserver
list and no selected server. -/
theorem getNsRecords_no_ns_error (zone : String) (rc : Nat)
    (ans auth : List RR) (rand : Nat)
    (hrc : rc = RcodeNameError ∨ rc = RcodeSuccess)
    (hans : extractNS ans = []) (hauth : extractNS auth = []) :
    getNsRecords zone (.ok (some ⟨rc, ans, auth⟩)) rand
      = .error ("No nameservers found for " ++ fqdn zone) :=
  getNsRecords_eval_empty zone rc ans auth rand hrc
    (by simp [nsCandidates, hans, hauth])

theorem getNsRecords_no_ns_error_witness :
    getNsRecords "example.com" (.ok (some ⟨0, [RR.other], [RR.other]⟩)) 0
      = .error ("No nameservers found for " ++ fqdn "example.com") :=
  getNsRecords_no_ns_error "example.com" 0 [RR.other] [RR.other] 0
    (Or.inr rfl) rfl rfl

/-- C5 counterexample: an unaccepted response status yields the error
message `"No name server to answer the question"`, not the message
`"no nameserver answered the question"` stated by the claim. -/
theorem localQuery_message_cex :
    localQuery (.ok (some ⟨2, [], []⟩))
      = .error "No name server to answer the question" ∧
    localQuery (.ok (some ⟨2, [], []⟩))
      ≠ .error "no nameserver answered the question" :=
  ⟨rfl, by decide⟩

/-- C5 (amended): `localQuery` returns a received response without error
iff its status is name-error or success; any other status yields the error
`"No name server to answer the question"`, and a transport error is
returned unchanged. -/
theorem localQuery_status (r : Msg) (e : String) :
    (localQuery (.ok (some r)) = .ok (some r)
       ↔ (r.rcode = RcodeNameError ∨ r.rcode = RcodeSuccess)) ∧
    (¬(r.rcode = RcodeNameError ∨ r.rcode = RcodeSuccess) →
       localQuery (.ok (some r))
         = .error "No name server to answer the question") ∧
    localQuery (.error e) = .error e := by
  refine ⟨⟨fun h => ?_, localQuery_good r⟩, localQuery_bad r, rfl⟩
  by_cases hrc : r.rcode = RcodeNameError ∨ r.rcode = RcodeSuccess
  · exact hrc
  · rw [localQuery_bad r hrc] at h
    simp at h

theorem localQuery_status_witness :
    localQuery (.ok (some ⟨2, [], []⟩))
      = .error "No name server to answer the question" :=
  (localQuery_status ⟨2, [], []⟩ "x").2.1 (by decide)

/-- C6: the walker queries exactly the zones `.`, `com.`, `example.com.`,
`www.example.com.` in that order for the target `www.example.com`. -/
theorem zoneSequence_www_example_com :
    zoneSequence "www.example.com"
      = [".", "com.", "example.com.", "www.example.com."] := rfl

/-- C7: whenever `getNsRecords` succeeds with a non-empty nameserver list,
the selected nameserver is a member of that list, whatever value the
random source yielded. -/
theorem getNsRecords_selected_mem (zone : String) (exch : ExchangeResult)
    (rand : Nat) (l : List String) (sel : String)
    (h : getNsRecords zone exch rand = .ok (l, sel)) (hne : l ≠ []) :
    sel ∈ l := by
  match exch with
  | .error e => simp [getNsRecords, localQuery] at h
  | .ok none =>
    simp only [getNsRecords, localQuery, Except.ok.injEq, Prod.mk.injEq] at h
    exact absurd h.1 (fun hl => hne hl.symm)
  | .ok (some m) =>
    obtain ⟨rc, ans, auth⟩ := m
    by_cases hrc : rc = RcodeNameError ∨ rc = RcodeSuccess
    · by_cases hcand : nsCandidates ans auth = []
      · rw [getNsRecords_eval_empty zone rc ans auth rand hrc hcand] at h
        simp at h
      · rw [getNsRecords_eval_ok zone rc ans auth rand hrc hcand] at h
        simp only [Except.ok.injEq, Prod.mk.injEq] at h
        obtain ⟨hl, hsel⟩ := h
        rw [← hl, ← hsel, mem_sortStrings]
        exact getD_mod_mem hcand rand
    · rw [getNsRecords_eval_bad zone rc ans auth rand hrc] at h
      simp at h

theorem getNsRecords_selected_mem_witness :
    "b." ∈ (["a.", "b."] : List String) :=
  getNsRecords_selected_mem "x" (.ok (some ⟨0, [.ns "b.", .ns "a."], []⟩)) 0
    ["a.", "b."] "b." rfl (by decide)

/-- C8 counterexample: `getNsRecords` does not return the unsorted raw
extraction — the single list it returns is the sorted one.  Here the raw
answer-section extraction is `["b.", "a."]` while the returned list is
`["a.", "b."]`. -/
theorem getNsRecords_unsorted_return_cex :
    getNsRecords "x" (.ok (some ⟨0, [.ns "b.", .ns "a."], []⟩)) 0
      = .ok (["a.", "b."], "b.") ∧
    extractNS [RR.ns "b.", RR.ns "a."] = ["b.", "a."] ∧
    (["a.", "b."] : List String) ≠ ["b.", "a."] :=
  ⟨rfl, rfl, by decide⟩

/-- C8 (amended): `getNsRecords` returns one nameserver list, namely the
raw candidate list sorted lexicographically (sorted in place after the
random pick), not an additional unsorted copy; the random selection is
made from the pre-sort candidate list, so sorting never changes which
member is selected, and the selected member belongs to the returned sorted
list. -/
theorem getNsRecords_sorted_independent (zone : String) (rc : Nat)
    (ans auth : List RR) (rand : Nat)
    (hrc : rc = RcodeNameError ∨ rc = RcodeSuccess)
    (hne : nsCandidates ans auth ≠ []) :
    getNsRecords zone (.ok (some ⟨rc, ans, auth⟩)) rand
      = .ok (sortStrings (nsCandidates ans auth),
             (nsCandidates ans auth).getD
               (rand % (nsCandidates ans auth).length) "") ∧
    (sortStrings (nsCandidates ans auth)).Sorted lexLe ∧
    (sortStrings (nsCandidates ans auth)).Perm (nsCandidates ans auth) ∧
    (nsCandidates ans auth).getD (rand % (nsCandidates ans auth).length) ""
      ∈ sortStrings (nsCandidates ans auth) := by
  refine ⟨getNsRecords_eval_ok zone rc ans auth rand hrc hne,
    sortStrings_sorted _, sortStrings_perm _, ?_⟩
  rw [mem_sortStrings]
  exact getD_mod_mem hne rand

theorem getNsRecords_sorted_independent_witness :
    getNsRecords "x" (.ok (some ⟨0, [.ns "b.", .ns "a."], []⟩)) 0
      = .ok (sortStrings (nsCandidates [.ns "b.", .ns "a."] []),
             (nsCandidates [.ns "b.", .ns "a."] []).getD
               (0 % (nsCandidates [.ns "b.", .ns "a."] []).length) "") ∧
    (sortStrings (nsCandidates [.ns "b.", .ns "a."] [])).Sorted lexLe ∧
    (sortStrings (nsCandidates [.ns "b.", .ns "a."] [])).Perm
      (nsCandidates [.ns "b.", .ns "a."] []) ∧
    (nsCandidates [.ns "b.", .ns "a."] []).getD
        (0 % (nsCandidates [.ns "b.", .ns "a."] []).length) ""
      ∈ sortStrings (nsCandidates [.ns "b.", .ns "a."] []) :=
  getNsRecords_sorted_independent "x" 0 [.ns "b.", .ns "a."] [] 0
    (Or.inr rfl) (by decide)

/-- C9: walking a domain with a trailing dot queries the same zone
sequence as walking the same domain without it — the input is normalized
to fully-qualified form internally. -/
theorem zoneSequence_trailing_dot (s : String) (h : isFqdn s = false) :
    zoneSequence (s ++ ".") = zoneSequence s := by
  unfold zoneSequence
  rw [splitDomainName_concat_dot s h]

theorem zoneSequence_trailing_dot_witness :
    zoneSequence ("www.example.com" ++ ".") = zoneSequence "www.example.com" :=
  zoneSequence_trailing_dot "www.example.com" rfl

/-- C10: a successful exchange carrying a nil response is passed through
by `localQuery` with no error, and `getNsRecords` then returns no error,
an empty nameserver list and an empty selected server. -/
theorem nil_response_passthrough (zone : String) (rand : Nat) :
    localQuery (.ok none) = .ok none ∧
    getNsRecords zone (.ok none) rand = .ok ([], "") :=
  ⟨rfl, rfl⟩

end ZoneNS
